import Mathlib

/-!
Shallow embedding of `sys-core/service/config/config.go` (package `config`)
of the sys-share repository, together with proofs about its TLS-material
helpers.  External effects (file reads, TLS dials, randomness, file writes)
are passed in explicitly as `Except`-valued outcomes or oracles; the Go
functions themselves are translated line by line into Lean definitions.
Bytes are modelled as `Nat` values (with `< 256` side conditions where the
value range matters).
-/

namespace SysShareConfig

/-- Model of Go `x509.Certificate` restricted to the fields the config code
touches: `Raw` (the raw DER bytes) and `IsCA`. -/
structure GoCert where
  raw : List Nat
  isCA : Bool
deriving DecidableEq, Repr

/-- Model of Go `tls.Certificate` (a parsed keypair as produced by
`tls.LoadX509KeyPair`): a certificate chain plus a private key. -/
structure TLSKeyPair where
  certChain : List (List Nat)
  privateKey : List Nat
deriving DecidableEq, Repr

/-- Model of Go `tls.ClientAuthType`; the zero value is `NoClientCert`. -/
inductive ClientAuthType where
  | noClientCert
  | requestClientCert
  | requireAnyClientCert
  | verifyClientCertIfGiven
  | requireAndVerifyClientCert
deriving DecidableEq, Repr

/-- Model of Go `tls.Config` restricted to the fields the config code sets;
defaults are Go zero values. -/
structure TLSConfig where
  certificates : List TLSKeyPair := []
  clientAuth : ClientAuthType := .noClientCert
  rootCAs : List GoCert := []
  insecureSkipVerify : Bool := false
deriving DecidableEq, Repr

/-- Model of `credentials.TransportCredentials` as produced by
`credentials.NewTLS`: it wraps the `tls.Config` it was given. -/
structure TransportCredentials where
  config : TLSConfig
deriving DecidableEq, Repr

/-- Embedding of `LoadTLSKeypair`.  The external call
`tls.LoadX509KeyPair(certPath, keyPath)` is supplied as `loadResult`
(an error for a missing, unreadable, malformed, or mismatched pair).
The Go body: on error return `(nil, err)`; otherwise build a `tls.Config`
with `Certificates = [serverCert]` and `ClientAuth = NoClientCert` and wrap
it with `credentials.NewTLS`. -/
def loadTLSKeypair (loadResult : Except String TLSKeyPair) :
    Except String TransportCredentials :=
  match loadResult with
  | .error err => .error err
  | .ok serverCert =>
      .ok ⟨{ certificates := [serverCert], clientAuth := .noClientCert }⟩

/-- Embedding of `x509.CertPool.AppendCertsFromPEM` (external library):
parsing of the PEM bundle is abstracted by `parse`; every certificate
parsed is appended to the pool and the returned flag reports whether at
least one certificate was appended. -/
def appendCertsFromPEM (parse : List Nat → List GoCert)
    (certPool : List GoCert) (pemBytes : List Nat) : List GoCert × Bool :=
  let parsed := parse pemBytes
  (certPool ++ parsed, !parsed.isEmpty)

/-- Embedding of `ClientLoadCA`.  The external file read
`ioutil.ReadFile(cacertPath)` is supplied as `readResult`; PEM parsing is
abstracted by `parse`.  The Go body: on read error return it; make a fresh
pool; if `AppendCertsFromPEM` reports false, fail with
"failed to add server CA's certificate"; else wrap a `tls.Config` with
`RootCAs = certPool`. -/
def clientLoadCA (readResult : Except String (List Nat))
    (parse : List Nat → List GoCert) : Except String TransportCredentials :=
  match readResult with
  | .error err => .error err
  | .ok pemServerCA =>
      let step := appendCertsFromPEM parse [] pemServerCA
      if step.2 = false then
        .error "failed to add server CA's certificate"
      else
        .ok ⟨{ rootCAs := step.1 }⟩

/-- Embedding of the `for _, cert := range certs` loop of `getCACert`:
return the first certificate with `IsCA` set, in presentation order. -/
def firstCA : List GoCert → Option GoCert
  | [] => none
  | c :: cs => if c.isCA then some c else firstCA cs

/-- Embedding of `getCACert`.  The external
`tls.Dial("tcp", domain+":443", conf)` together with
`conn.ConnectionState().PeerCertificates` is supplied as `dialResult`: an
error when the handshake fails, otherwise the peer chain in presentation
order.  The Go body scans the chain and returns the first CA-marked
certificate, or the error "unable to get CA from server: cert does not
exist" when none is marked. -/
def getCACert (dialResult : Except String (List GoCert)) :
    Except String GoCert :=
  match dialResult with
  | .error err => .error err
  | .ok certs =>
      match firstCA certs with
      | some cert => .ok cert
      | none => .error "unable to get CA from server: cert does not exist"

theorem firstCA_eq_some_of_first (certs : List GoCert) (i : Nat)
    (hi : i < certs.length) (hCA : (certs.get ⟨i, hi⟩).isCA = true)
    (hmin : ∀ j (hj : j < i),
      (certs.get ⟨j, Nat.lt_trans hj hi⟩).isCA = false) :
    firstCA certs = some (certs.get ⟨i, hi⟩) := by
  induction certs generalizing i with
  | nil => exact absurd hi (Nat.not_lt_zero i)
  | cons c cs ih =>
      cases i with
      | zero =>
          simp only [List.get] at hCA
          simp [firstCA, hCA]
      | succ i' =>
          have hc : c.isCA = false := hmin 0 (Nat.succ_pos i')
          simp only [List.get] at hCA ⊢
          simp only [firstCA, hc]
          simp only [Bool.false_eq_true, if_false]
          exact ih i' (Nat.lt_of_succ_lt_succ hi) hCA
            (fun j hj => hmin (j + 1) (Nat.succ_lt_succ hj))

theorem firstCA_eq_none (certs : List GoCert)
    (h : ∀ c ∈ certs, c.isCA = false) : firstCA certs = none := by
  induction certs with
  | nil => rfl
  | cons c cs ih =>
      have hc : c.isCA = false := h c (List.mem_cons_self c cs)
      simp only [firstCA, hc, Bool.false_eq_true, if_false]
      exact ih fun d hd => h d (List.mem_cons_of_mem c hd)

/-- The standard base64 alphabet (bytes of
"ABCDEFGHIJKLMNOPQRSTUVWXYZabcdefghijklmnopqrstuvwxyz0123456789+/"),
used by the external `encoding/pem` / `encoding/base64` libraries. -/
def b64Table : List Nat :=
  [65, 66, 67, 68, 69, 70, 71, 72, 73, 74, 75, 76, 77, 78, 79, 80, 81, 82,
   83, 84, 85, 86, 87, 88, 89, 90, 97, 98, 99, 100, 101, 102, 103, 104, 105,
   106, 107, 108, 109, 110, 111, 112, 113, 114, 115, 116, 117, 118, 119,
   120, 121, 122, 48, 49, 50, 51, 52, 53, 54, 55, 56, 57, 43, 47]

/-- The base64 character (as a byte) for a sextet value. -/
def b64Char (n : Nat) : Nat := b64Table.getD n 0

/-- The sextet value of a base64 character, if any. -/
def b64Val (c : Nat) : Option Nat := b64Table.findIdx? (· == c)

/-- Model of standard (padded) base64 encoding of a byte list, as performed
by the external `encoding/base64` library: bytes are consumed three at a
time and emitted as four alphabet characters, with `=` (byte 61) padding
for a final group of one or two bytes. -/
def base64Encode : List Nat → List Nat
  | [] => []
  | [a] => [b64Char (a / 4), b64Char (a % 4 * 16), 61, 61]
  | [a, b] => [b64Char (a / 4), b64Char (a % 4 * 16 + b / 16),
               b64Char (b % 16 * 4), 61]
  | a :: b :: c :: rest =>
      b64Char (a / 4) :: b64Char (a % 4 * 16 + b / 16) ::
      b64Char (b % 16 * 4 + c / 64) :: b64Char (c % 64) ::
      base64Encode rest

/-- Model of standard (padded) base64 decoding: four characters are
consumed at a time; a padded group is only accepted at the end. -/
def base64Decode : List Nat → Option (List Nat)
  | [] => some []
  | c0 :: c1 :: c2 :: c3 :: rest =>
      if rest = [] ∧ c2 = 61 ∧ c3 = 61 then
        match b64Val c0, b64Val c1 with
        | some v0, some v1 => some [v0 * 4 + v1 / 16]
        | _, _ => none
      else if rest = [] ∧ c3 = 61 then
        match b64Val c0, b64Val c1, b64Val c2 with
        | some v0, some v1, some v2 =>
            some [v0 * 4 + v1 / 16, v1 % 16 * 16 + v2 / 4]
        | _, _, _ => none
      else
        match b64Val c0, b64Val c1, b64Val c2, b64Val c3,
            base64Decode rest with
        | some v0, some v1, some v2, some v3, some tail =>
            some ((v0 * 4 + v1 / 16) :: (v1 % 16 * 16 + v2 / 4) ::
                  (v2 % 4 * 64 + v3) :: tail)
        | _, _, _, _, _ => none
  | _ => none

theorem b64Val_b64Char : ∀ n, n < 64 → b64Val (b64Char n) = some n := by
  decide

theorem b64Char_ne_newline : ∀ n, b64Char n ≠ 10 := by
  intro n
  by_cases h : n < b64Table.length
  · revert n
    decide
  · unfold b64Char
    rw [List.getD_eq_default _ _ (Nat.le_of_not_lt h)]
    decide

theorem b64Char_ne_pad : ∀ n, b64Char n ≠ 61 := by
  intro n
  by_cases h : n < b64Table.length
  · revert n
    decide
  · unfold b64Char
    rw [List.getD_eq_default _ _ (Nat.le_of_not_lt h)]
    decide

theorem base64Encode_ne_newline (bs : List Nat) :
    ∀ c ∈ base64Encode bs, c ≠ 10 := by
  induction bs using base64Encode.induct with
  | case1 => intro c hc; simp [base64Encode] at hc
  | case2 a =>
      intro c hc
      simp only [base64Encode, List.mem_cons, List.not_mem_nil, or_false] at hc
      rcases hc with h | h | h | h <;> subst h <;>
        first | exact b64Char_ne_newline _ | decide
  | case3 a b =>
      intro c hc
      simp only [base64Encode, List.mem_cons, List.not_mem_nil, or_false] at hc
      rcases hc with h | h | h | h <;> subst h <;>
        first | exact b64Char_ne_newline _ | decide
  | case4 a b c rest ih =>
      intro x hx
      simp only [base64Encode, List.mem_cons] at hx
      rcases hx with h | h | h | h | h
      · subst h; exact b64Char_ne_newline _
      · subst h; exact b64Char_ne_newline _
      · subst h; exact b64Char_ne_newline _
      · subst h; exact b64Char_ne_newline _
      · exact ih x h

theorem base64_roundtrip (bs : List Nat) (h : ∀ b ∈ bs, b < 256) :
    base64Decode (base64Encode bs) = some bs := by
  induction bs using base64Encode.induct with
  | case1 => rfl
  | case2 a =>
      have ha : a < 256 := h a (by simp)
      have h0 : a / 4 < 64 := by omega
      have h1 : a % 4 * 16 < 64 := by omega
      simp only [base64Encode, base64Decode, and_self, and_true, if_pos,
        b64Val_b64Char _ h0, b64Val_b64Char _ h1]
      congr 2
      omega
  | case3 a b =>
      have ha : a < 256 := h a (by simp)
      have hb : b < 256 := h b (by simp)
      have h0 : a / 4 < 64 := by omega
      have h1 : a % 4 * 16 + b / 16 < 64 := by omega
      have h2 : b % 16 * 4 < 64 := by omega
      simp only [base64Encode, base64Decode]
      rw [if_neg (fun hcon => b64Char_ne_pad _ hcon.2.1),
        if_pos (by simp)]
      simp only [b64Val_b64Char _ h0, b64Val_b64Char _ h1,
        b64Val_b64Char _ h2]
      congr 1
      have e0 : a / 4 * 4 + (a % 4 * 16 + b / 16) / 16 = a := by omega
      have e1 : (a % 4 * 16 + b / 16) % 16 * 16 + b % 16 * 4 / 4 = b := by
        omega
      rw [e0, e1]
  | case4 a b c rest ih =>
      have ha : a < 256 := h a (by simp)
      have hb : b < 256 := h b (by simp)
      have hc : c < 256 := h c (by simp)
      have h0 : a / 4 < 64 := by omega
      have h1 : a % 4 * 16 + b / 16 < 64 := by omega
      have h2 : b % 16 * 4 + c / 64 < 64 := by omega
      have h3 : c % 64 < 64 := by omega
      have hrest : ∀ x ∈ rest, x < 256 := fun x hx => h x (by simp [hx])
      have htail := ih hrest
      simp only [base64Encode, base64Decode]
      rw [if_neg (fun hcon => b64Char_ne_pad _ hcon.2.2),
        if_neg (fun hcon => b64Char_ne_pad _ hcon.2)]
      simp only [b64Val_b64Char _ h0, b64Val_b64Char _ h1,
        b64Val_b64Char _ h2, b64Val_b64Char _ h3, htail]
      congr 1
      have e0 : a / 4 * 4 + (a % 4 * 16 + b / 16) / 16 = a := by omega
      have e1 : (a % 4 * 16 + b / 16) % 16 * 16 +
          (b % 16 * 4 + c / 64) / 4 = b := by omega
      have e2 : (b % 16 * 4 + c / 64) % 4 * 64 + c % 64 = c := by omega
      rw [e0, e1, e2]

/-- Bytes of the PEM block type string "CERTIFICATE". -/
def certType : List Nat := [67, 69, 82, 84, 73, 70, 73, 67, 65, 84, 69]

/-- Bytes of the PEM opening line "-----BEGIN <type>-----\n". -/
def pemBegin (t : List Nat) : List Nat :=
  [45, 45, 45, 45, 45, 66, 69, 71, 73, 78, 32] ++ t ++
  [45, 45, 45, 45, 45, 10]

/-- Bytes of the PEM closing line "-----END <type>-----\n". -/
def pemEnd (t : List Nat) : List Nat :=
  [45, 45, 45, 45, 45, 69, 78, 68, 32] ++ t ++ [45, 45, 45, 45, 45, 10]

/-- Model of Go `pem.Block`: a type string and the raw payload bytes. -/
structure PemBlock where
  type : List Nat
  bytes : List Nat
deriving DecidableEq, Repr

/-- Model of the external `pem.EncodeToMemory`: opening line, base64 of the
payload, newline, closing line.  (The 64-column line wrapping performed by
the Go library is omitted; it does not affect the decoded payload.) -/
def pemEncodeToMemory (b : PemBlock) : List Nat :=
  pemBegin b.type ++ base64Encode b.bytes ++ [10] ++ pemEnd b.type

/-- Split a byte list at the first occurrence of `delim`, returning the
bytes before it and the bytes after it. -/
def splitOnFirst (delim : List Nat) : List Nat → Option (List Nat × List Nat)
  | [] => if delim.isPrefixOf ([] : List Nat) then some ([], []) else none
  | x :: xs =>
      if delim.isPrefixOf (x :: xs) then
        some ([], (x :: xs).drop delim.length)
      else
        (splitOnFirst delim xs).map fun p => (x :: p.1, p.2)

/-- Model of PEM decoding for a block of type `t`: check the opening line,
take the base64 payload up to the newline that starts the closing line,
require nothing after the closing line, and base64-decode the payload. -/
def pemDecode (t : List Nat) (bs : List Nat) : Option (List Nat) :=
  if (pemBegin t).isPrefixOf bs then
    match splitOnFirst (10 :: pemEnd t) (bs.drop (pemBegin t).length) with
    | some (payload, tail) =>
        if tail = [] then base64Decode payload else none
    | none => none
  else none

theorem splitOnFirst_append (d0 : Nat) (ds pre post : List Nat)
    (hpre : ∀ c ∈ pre, c ≠ d0) :
    splitOnFirst (d0 :: ds) (pre ++ ((d0 :: ds) ++ post)) =
      some (pre, post) := by
  induction pre with
  | nil =>
      show splitOnFirst (d0 :: ds) (d0 :: (ds ++ post)) = some ([], post)
      rw [splitOnFirst]
      rw [if_pos]
      · simp [List.drop_succ_cons, List.drop_left]
      · simp only [List.isPrefixOf, Bool.and_eq_true, beq_iff_eq]
        exact ⟨trivial, List.isPrefixOf_iff_prefix.mpr (List.prefix_append _ _)⟩
  | cons x xs ih =>
      have hx : x ≠ d0 := hpre x (List.mem_cons_self x xs)
      show splitOnFirst (d0 :: ds) (x :: (xs ++ ((d0 :: ds) ++ post))) =
        some (x :: xs, post)
      rw [splitOnFirst]
      rw [if_neg]
      · rw [ih fun c hc => hpre c (List.mem_cons_of_mem x hc)]
        rfl
      · simp only [List.isPrefixOf, Bool.and_eq_true, beq_iff_eq]
        intro hcon
        exact hx hcon.1.symm

theorem pemBegin_ne_empty (t : List Nat) : pemBegin t ≠ [] := by
  simp [pemBegin]

theorem pem_roundtrip (t raw : List Nat) (h : ∀ b ∈ raw, b < 256) :
    pemDecode t (pemEncodeToMemory ⟨t, raw⟩) = some raw := by
  unfold pemDecode pemEncodeToMemory
  rw [if_pos]
  · have harr : pemBegin t ++ base64Encode raw ++ [10] ++ pemEnd t =
        pemBegin t ++ (base64Encode raw ++ ((10 :: pemEnd t) ++ [])) := by
      simp
    rw [harr, List.drop_left,
      splitOnFirst_append 10 (pemEnd t) (base64Encode raw) []
        (base64Encode_ne_newline raw)]
    simp only [if_pos rfl]
    exact base64_roundtrip raw h
  · exact List.isPrefixOf_iff_prefix.mpr
      ⟨base64Encode raw ++ [10] ++ pemEnd t, by simp⟩

/-- Embedding of `DownloadCACert`.  The external TLS dial is supplied as
`dialResult` (as in `getCACert`) and the outcome of
`ioutil.WriteFile(outputPath, publicKeyPem, 0644)` as `writeOutcome`.
The result records the Go return value together with the bytes handed to
`WriteFile` (`none` when no write was attempted).  The Go body: extract
the CA certificate, propagate its error; otherwise PEM-encode the
certificate's `Raw` bytes under a "CERTIFICATE" block and write them. -/
def downloadCACert (dialResult : Except String (List GoCert))
    (writeOutcome : Except String Unit) :
    Except String Unit × Option (List Nat) :=
  match getCACert dialResult with
  | .error err => (.error err, none)
  | .ok cert =>
      let publicKeyPem := pemEncodeToMemory ⟨certType, cert.raw⟩
      (writeOutcome, some publicKeyPem)

/-- The staging ACME directory endpoint of the external certmagic library
(`certmagic.LetsEncryptStagingCA`). -/
def letsEncryptStagingCA : String :=
  "https://acme-staging-v02.api.letsencrypt.org/directory"

/-- The production ACME directory endpoint of the external certmagic
library (`certmagic.LetsEncryptProductionCA`). -/
def letsEncryptProductionCA : String :=
  "https://acme-v02.api.letsencrypt.org/directory"

/-- Model of `certmagic.ACMEManager` restricted to the fields
`GenerateTLSConfig` sets; defaults are Go zero values. -/
structure ACMEManager where
  agreed : Bool := false
  email : String := ""
  ca : String := ""
deriving DecidableEq, Repr

/-- The ACME order registered by `GenerateTLSConfig`: the issuer manager
installed as `magic.Issuer` together with the domain set handed to
`magic.ManageSync`. -/
structure AcmeOrder where
  issuer : ACMEManager
  domains : List String
deriving DecidableEq, Repr

/-- Embedding of `GenerateTLSConfig`.  The certmagic machinery is
external; what the Go body determines is the `ACMEManager` value (with
`Agreed = true`, `Email = email`, and `CA` selected by `staging`) and the
domain list handed to `ManageSync`, whose outcome is supplied as
`manageSyncOutcome`.  The result records the Go return value (`()` stands
for the opaque `*tls.Config`) together with the registered order. -/
def generateTLSConfig (staging : Bool) (email : String)
    (domains : List String) (manageSyncOutcome : Except String Unit) :
    Except String Unit × AcmeOrder :=
  let acmeMgr : ACMEManager := { agreed := true, email := email }
  let acmeMgr :=
    if staging then { acmeMgr with ca := letsEncryptStagingCA }
    else { acmeMgr with ca := letsEncryptProductionCA }
  let order : AcmeOrder := ⟨acmeMgr, domains⟩
  match manageSyncOutcome with
  | .error err => (.error err, order)
  | .ok _ => (.ok (), order)

/-- Bytes of the `legalChars` string of `GenRandomByteSlice`:
"01234567890ABCDEFGHIJKLMNOPQRSTUVWXYZabcdefghijklmnopqrstuvwxyz-_"
(note the doubled `0`; 65 characters). -/
def legalChars : List Nat :=
  [48, 49, 50, 51, 52, 53, 54, 55, 56, 57, 48, 65, 66, 67, 68, 69, 70, 71,
   72, 73, 74, 75, 76, 77, 78, 79, 80, 81, 82, 83, 84, 85, 86, 87, 88, 89,
   90, 97, 98, 99, 100, 101, 102, 103, 104, 105, 106, 107, 108, 109, 110,
   111, 112, 113, 114, 115, 116, 117, 118, 119, 120, 121, 122, 45, 95]

/-- Embedding of the `for` loop of `GenRandomByteSlice`: at iteration `i`
the external `rand.Int(rand.Reader, 65)` is supplied by `randoms i` (an
error aborts the loop, propagating the error); on success the indexed
legal character is appended to the accumulator `rnd`. -/
def genRandomLoop (randoms : Nat → Except String (Fin 65)) (start : Nat) :
    Nat → List Nat → Except String (List Nat)
  | 0, rnd => .ok rnd
  | n + 1, rnd =>
      match randoms start with
      | .error err => .error err
      | .ok num => genRandomLoop randoms (start + 1) n
          (rnd ++ [legalChars.getD num.val 0])

/-- Embedding of `GenRandomByteSlice`: the accumulator starts as
`make([]byte, length)` — a slice of `length` zero bytes — and the loop
appends `length` drawn characters to it. -/
def genRandomByteSlice (length : Nat)
    (randoms : Nat → Except String (Fin 65)) : Except String (List Nat) :=
  genRandomLoop randoms 0 length (List.replicate length 0)

/-- Model of `timestamppb.Timestamp`: seconds since the Unix epoch and a
nanosecond remainder. -/
structure PbTimestamp where
  seconds : Int
  nanos : Int
deriving DecidableEq, Repr

/-- Model of Go `time.Unix(sec, nsec)` normalization (from the Go standard
library): bring `nsec` into `[0, 1e9)` adjusting `sec`, with Go's
truncated integer division. -/
def goTimeUnix (sec nsec : Int) : Int × Int :=
  if nsec < 0 ∨ 1000000000 ≤ nsec then
    let n := nsec.tdiv 1000000000
    let sec := sec + n
    let nsec := nsec - n * 1000000000
    if nsec < 0 then (sec - 1, nsec + 1000000000) else (sec, nsec)
  else (sec, nsec)

/-- Embedding of `UnixToUtcTS`: `time.Unix(0, in).UTC()` followed by
`timestamppb.New`, whose `Seconds` is `t.Unix()` and `Nanos` is
`t.Nanosecond()`.  (The UTC conversion does not change the instant.) -/
def unixToUtcTS (i : Int) : PbTimestamp :=
  let t := goTimeUnix 0 i
  ⟨t.1, t.2⟩

/-- Embedding of `TsToUnixUTC`: returns `int64(in.GetNanos())`. -/
def tsToUnixUTC (ts : PbTimestamp) : Int := ts.nanos

/-- One external attempt: consult the outcome oracle at attempt index `k`
and record the consultation. -/
def runExternal {α : Type} (oracle : Nat → Except String α) (k : Nat) :
    Except String α × List Nat :=
  (oracle k, [k])

/-- The `LoadTLSKeypair` body run against an attempt-indexed oracle for
`tls.LoadX509KeyPair`: the straight-line Go code consults attempt 0 once;
an error returns immediately, a success proceeds with the parsed pair.
The attempt indices consulted are returned alongside the result. -/
def loadTLSKeypairAttempts (oracle : Nat → Except String TLSKeyPair) :
    Except String TransportCredentials × List Nat :=
  let step := runExternal oracle 0
  match step.1 with
  | .error err => (.error err, step.2)
  | .ok serverCert => (loadTLSKeypair (.ok serverCert), step.2)

/-- The `ClientLoadCA` body run against an attempt-indexed oracle for
`ioutil.ReadFile`, recording the attempt indices consulted. -/
def clientLoadCAAttempts (oracle : Nat → Except String (List Nat))
    (parse : List Nat → List GoCert) :
    Except String TransportCredentials × List Nat :=
  let step := runExternal oracle 0
  match step.1 with
  | .error err => (.error err, step.2)
  | .ok pemServerCA => (clientLoadCA (.ok pemServerCA) parse, step.2)

/-- The `getCACert` body run against an attempt-indexed oracle for
`tls.Dial`, recording the attempt indices consulted. -/
def getCACertAttempts (oracle : Nat → Except String (List GoCert)) :
    Except String GoCert × List Nat :=
  let step := runExternal oracle 0
  match step.1 with
  | .error err => (.error err, step.2)
  | .ok certs => (getCACert (.ok certs), step.2)

/-- C1: for a host whose TLS handshake succeeds, `getCACert` scans the
presented peer chain in presentation order and returns the first
certificate whose `isCA` flag is true; if no certificate is CA-marked it
returns the no-CA error and no certificate; if the dial fails it returns
the connection error. -/
theorem claim_C1_getCACert_first_CA :
    (∀ e : String, getCACert (.error e) = .error e) ∧
    (∀ (certs : List GoCert) (i : Nat) (hi : i < certs.length),
      (certs.get ⟨i, hi⟩).isCA = true →
      (∀ j (hj : j < i), (certs.get ⟨j, Nat.lt_trans hj hi⟩).isCA = false) →
      getCACert (.ok certs) = .ok (certs.get ⟨i, hi⟩)) ∧
    (∀ certs : List GoCert, (∀ c ∈ certs, c.isCA = false) →
      getCACert (.ok certs) =
        .error "unable to get CA from server: cert does not exist") := by
  refine ⟨fun e => rfl, ?_, ?_⟩
  · intro certs i hi hCA hmin
    simp only [getCACert, firstCA_eq_some_of_first certs i hi hCA hmin]
  · intro certs hall
    simp only [getCACert, firstCA_eq_none certs hall]

theorem claim_C1_witness :
    getCACert (.ok [⟨[1], false⟩, ⟨[2], true⟩, ⟨[3], true⟩]) =
      .ok ⟨[2], true⟩ ∧
    getCACert (.ok [⟨[1], false⟩]) =
      .error "unable to get CA from server: cert does not exist" ∧
    getCACert (.error "dial tcp: connection refused") =
      .error "dial tcp: connection refused" := by
  refine ⟨?_, ?_, ?_⟩
  · exact claim_C1_getCACert_first_CA.2.1
      [⟨[1], false⟩, ⟨[2], true⟩, ⟨[3], true⟩] 1 (by decide) (by decide)
      (by decide)
  · exact claim_C1_getCACert_first_CA.2.2 [⟨[1], false⟩] (by decide)
  · exact claim_C1_getCACert_first_CA.1 "dial tcp: connection refused"

/-- C2: whenever the external keypair load fails (missing, unreadable,
malformed, or mismatched certificate/key files), `LoadTLSKeypair` returns
that error and no credential value of any kind. -/
theorem claim_C2_loadTLSKeypair_error_total :
    ∀ e : String, loadTLSKeypair (.error e) = .error e ∧
      ∀ creds : TransportCredentials, loadTLSKeypair (.error e) ≠ .ok creds := by
  intro e
  refine ⟨rfl, ?_⟩
  intro creds hcon
  simp only [loadTLSKeypair] at hcon
  exact Except.noConfusion hcon

theorem claim_C2_witness :
    loadTLSKeypair (.error "tls: private key does not match public key") =
      .error "tls: private key does not match public key" ∧
    loadTLSKeypair (.error "tls: private key does not match public key") ≠
      .ok ⟨{}⟩ :=
  ⟨(claim_C2_loadTLSKeypair_error_total
      "tls: private key does not match public key").1,
   (claim_C2_loadTLSKeypair_error_total
      "tls: private key does not match public key").2 ⟨{}⟩⟩

/-- C4: for every successfully parsed certificate/key pair,
`LoadTLSKeypair` builds a credential set whose configuration holds exactly
that one certificate and has client authentication disabled
(`NoClientCert`). -/
theorem claim_C4_loadTLSKeypair_config :
    ∀ pair : TLSKeyPair, ∃ creds : TransportCredentials,
      loadTLSKeypair (.ok pair) = .ok creds ∧
      creds.config.certificates = [pair] ∧
      creds.config.clientAuth = ClientAuthType.noClientCert :=
  fun pair => ⟨⟨{ certificates := [pair], clientAuth := .noClientCert }⟩,
    rfl, rfl, rfl⟩

/-- C5: `ClientLoadCA` fails exactly when the CA bundle file is unreadable
or appending its contents to a fresh pool yields zero certificates;
otherwise it returns credentials whose root-CA pool contains the
certificates appended from the file. -/
theorem claim_C5_clientLoadCA :
    (∀ (e : String) (parse : List Nat → List GoCert),
      clientLoadCA (.error e) parse = .error e) ∧
    (∀ (bs : List Nat) (parse : List Nat → List GoCert), parse bs = [] →
      clientLoadCA (.ok bs) parse =
        .error "failed to add server CA's certificate") ∧
    (∀ (bs : List Nat) (parse : List Nat → List GoCert), parse bs ≠ [] →
      ∃ creds : TransportCredentials,
        clientLoadCA (.ok bs) parse = .ok creds ∧
        creds.config.rootCAs = parse bs) := by
  refine ⟨fun e parse => rfl, ?_, ?_⟩
  · intro bs parse h
    simp [clientLoadCA, appendCertsFromPEM, h]
  · intro bs parse h
    refine ⟨⟨{ rootCAs := parse bs }⟩, ?_, rfl⟩
    simp [clientLoadCA, appendCertsFromPEM, h]

theorem claim_C5_witness :
    clientLoadCA (.error "open ca.pem: no such file") (fun _ => []) =
      .error "open ca.pem: no such file" ∧
    clientLoadCA (.ok [37, 37]) (fun _ => []) =
      .error "failed to add server CA's certificate" ∧
    (∃ creds : TransportCredentials,
      clientLoadCA (.ok [37, 37]) (fun _ => [⟨[9], true⟩]) = .ok creds ∧
      creds.config.rootCAs = (fun _ : List Nat => [⟨[9], true⟩]) [37, 37]) := by
  refine ⟨?_, ?_, ?_⟩
  · exact claim_C5_clientLoadCA.1 "open ca.pem: no such file" (fun _ => [])
  · exact claim_C5_clientLoadCA.2.1 [37, 37] (fun _ => []) rfl
  · exact claim_C5_clientLoadCA.2.2 [37, 37] (fun _ => [⟨[9], true⟩])
      (by simp)

/-- C6: `GenerateTLSConfig` registers an ACME order whose issuer endpoint
is the staging CA exactly when `staging` is true and the production CA
when it is false, with `Agreed = true`, the supplied contact email, and
the supplied domain set handed to `ManageSync`; the two endpoints are
distinct. -/
theorem claim_C6_generateTLSConfig_issuer :
    (∀ (staging : Bool) (email : String) (domains : List String)
        (outcome : Except String Unit),
      (generateTLSConfig staging email domains outcome).2 =
        ⟨{ agreed := true, email := email,
           ca := if staging then letsEncryptStagingCA
                 else letsEncryptProductionCA }, domains⟩) ∧
    letsEncryptStagingCA ≠ letsEncryptProductionCA := by
  constructor
  · intro staging email domains outcome
    cases staging <;> cases outcome <;> rfl
  · decide

theorem claim_C6_witness :
    (generateTLSConfig true "ops@example.test" ["example.test"] (.ok ())).2 =
      ⟨{ agreed := true, email := "ops@example.test",
         ca := if true then letsEncryptStagingCA
               else letsEncryptProductionCA }, ["example.test"]⟩ ∧
    (generateTLSConfig false "ops@example.test" ["example.test"] (.ok ())).2 =
      ⟨{ agreed := true, email := "ops@example.test",
         ca := if false then letsEncryptStagingCA
               else letsEncryptProductionCA }, ["example.test"]⟩ :=
  ⟨claim_C6_generateTLSConfig_issuer.1 true "ops@example.test"
      ["example.test"] (.ok ()),
   claim_C6_generateTLSConfig_issuer.1 false "ops@example.test"
      ["example.test"] (.ok ())⟩

/-- C3: for every successfully extracted trust anchor, `DownloadCACert`
PEM-encodes the anchor's raw bytes under a CERTIFICATE block and hands
exactly those bytes to the file write (so PEM-decoding the written file
yields the anchor's raw bytes); the write outcome — in particular a write
error — is returned unchanged; on an extraction failure nothing is written
and the extraction error is returned. -/
theorem claim_C3_downloadCACert_persist :
    (∀ (dialResult : Except String (List GoCert))
        (writeOutcome : Except String Unit) (cert : GoCert),
      getCACert dialResult = .ok cert →
      (downloadCACert dialResult writeOutcome).2 =
        some (pemEncodeToMemory ⟨certType, cert.raw⟩) ∧
      (downloadCACert dialResult writeOutcome).1 = writeOutcome ∧
      ((∀ b ∈ cert.raw, b < 256) →
        pemDecode certType (pemEncodeToMemory ⟨certType, cert.raw⟩) =
          some cert.raw)) ∧
    (∀ (dialResult : Except String (List GoCert))
        (writeOutcome : Except String Unit) (e : String),
      getCACert dialResult = .error e →
      downloadCACert dialResult writeOutcome = (.error e, none)) := by
  constructor
  · intro dialResult writeOutcome cert h
    refine ⟨?_, ?_, fun hb => pem_roundtrip certType cert.raw hb⟩ <;>
      simp [downloadCACert, h]
  · intro dialResult writeOutcome e h
    simp [downloadCACert, h]

theorem claim_C3_witness :
    (downloadCACert (.ok [⟨[1, 2, 3], true⟩]) (.error "disk full")).1 =
      .error "disk full" ∧
    (downloadCACert (.ok [⟨[1, 2, 3], true⟩]) (.ok ())).2 =
      some (pemEncodeToMemory ⟨certType, [1, 2, 3]⟩) ∧
    pemDecode certType (pemEncodeToMemory ⟨certType, [1, 2, 3]⟩) =
      some [1, 2, 3] ∧
    downloadCACert (.error "dial tcp: connection refused") (.ok ()) =
      (.error "dial tcp: connection refused", none) := by
  refine ⟨?_, ?_, ?_, ?_⟩
  · exact (claim_C3_downloadCACert_persist.1 (.ok [⟨[1, 2, 3], true⟩])
      (.error "disk full") ⟨[1, 2, 3], true⟩ rfl).2.1
  · exact (claim_C3_downloadCACert_persist.1 (.ok [⟨[1, 2, 3], true⟩])
      (.ok ()) ⟨[1, 2, 3], true⟩ rfl).1
  · exact (claim_C3_downloadCACert_persist.1 (.ok [⟨[1, 2, 3], true⟩])
      (.ok ()) ⟨[1, 2, 3], true⟩ rfl).2.2 (by decide)
  · exact claim_C3_downloadCACert_persist.2
      (.error "dial tcp: connection refused") (.ok ())
      "dial tcp: connection refused" rfl

/-- C7: `LoadTLSKeypair`, `ClientLoadCA` and `getCACert` never retry the
underlying external operation: each consults exactly the first attempt of
its oracle (attempt index 0 and nothing else), and when that attempt
fails the error is propagated immediately as the result. -/
theorem claim_C7_no_internal_retries :
    (∀ oracle : Nat → Except String TLSKeyPair,
      (loadTLSKeypairAttempts oracle).2 = [0] ∧
      (loadTLSKeypairAttempts oracle).1 = loadTLSKeypair (oracle 0)) ∧
    (∀ (oracle : Nat → Except String TLSKeyPair) (e : String),
      oracle 0 = .error e → (loadTLSKeypairAttempts oracle).1 = .error e) ∧
    (∀ (oracle : Nat → Except String (List Nat))
        (parse : List Nat → List GoCert),
      (clientLoadCAAttempts oracle parse).2 = [0] ∧
      (clientLoadCAAttempts oracle parse).1 =
        clientLoadCA (oracle 0) parse) ∧
    (∀ (oracle : Nat → Except String (List Nat))
        (parse : List Nat → List GoCert) (e : String),
      oracle 0 = .error e →
      (clientLoadCAAttempts oracle parse).1 = .error e) ∧
    (∀ oracle : Nat → Except String (List GoCert),
      (getCACertAttempts oracle).2 = [0] ∧
      (getCACertAttempts oracle).1 = getCACert (oracle 0)) ∧
    (∀ (oracle : Nat → Except String (List GoCert)) (e : String),
      oracle 0 = .error e → (getCACertAttempts oracle).1 = .error e) := by
  refine ⟨?_, ?_, ?_, ?_, ?_, ?_⟩
  · intro oracle
    cases h : oracle 0 <;>
      simp [loadTLSKeypairAttempts, runExternal, h, loadTLSKeypair]
  · intro oracle e h
    simp [loadTLSKeypairAttempts, runExternal, h]
  · intro oracle parse
    cases h : oracle 0 <;>
      simp [clientLoadCAAttempts, runExternal, h, clientLoadCA]
  · intro oracle parse e h
    simp [clientLoadCAAttempts, runExternal, h]
  · intro oracle
    cases h : oracle 0 <;>
      simp [getCACertAttempts, runExternal, h, getCACert]
  · intro oracle e h
    simp [getCACertAttempts, runExternal, h]

theorem claim_C7_witness :
    (loadTLSKeypairAttempts (fun _ => .error "open cert.pem: no file")).2 =
      [0] ∧
    (loadTLSKeypairAttempts (fun _ => .error "open cert.pem: no file")).1 =
      .error "open cert.pem: no file" ∧
    (clientLoadCAAttempts (fun _ => .error "read failed") (fun _ => [])).1 =
      .error "read failed" ∧
    (getCACertAttempts (fun _ => .error "handshake timeout")).1 =
      .error "handshake timeout" := by
  refine ⟨?_, ?_, ?_, ?_⟩
  · exact (claim_C7_no_internal_retries.1
      (fun _ => .error "open cert.pem: no file")).1
  · exact claim_C7_no_internal_retries.2.1
      (fun _ => .error "open cert.pem: no file") "open cert.pem: no file" rfl
  · exact claim_C7_no_internal_retries.2.2.2.1
      (fun _ => .error "read failed") (fun _ => []) "read failed" rfl
  · exact claim_C7_no_internal_retries.2.2.2.2.2
      (fun _ => .error "handshake timeout") "handshake timeout" rfl

theorem getD_mem_of_lt (l : List Nat) (i : Nat) (d : Nat)
    (h : i < l.length) : l.getD i d ∈ l := by
  rw [List.getD_eq_getElem l d h]
  exact List.getElem_mem h

theorem genRandomLoop_ok (randoms : Nat → Except String (Fin 65))
    (f : Nat → Fin 65) (hf : ∀ i, randoms i = .ok (f i)) :
    ∀ (n start : Nat) (acc : List Nat),
      genRandomLoop randoms start n acc =
        .ok (acc ++ (List.range n).map
          fun k => legalChars.getD (f (start + k)).val 0) := by
  intro n
  induction n with
  | zero => intro start acc; simp [genRandomLoop]
  | succ n ih =>
      intro start acc
      rw [genRandomLoop, hf start]
      show genRandomLoop randoms (start + 1) n
          (acc ++ [legalChars.getD (f start).val 0]) = _
      rw [ih (start + 1)]
      congr 1
      rw [List.append_assoc, List.singleton_append]
      congr 1
      rw [List.range_succ_eq_map, List.map_cons, List.map_map]
      congr 1
      apply List.map_congr_left
      intro a _
      simp only [Function.comp_apply, Nat.succ_eq_add_one]
      have harg : start + 1 + a = start + (a + 1) := by omega
      rw [harg]

/-- C9: for every length `n`, a successful `GenRandomByteSlice(n)` returns
a slice of length `2 * n`: its first `n` bytes are the zero bytes of the
initial `make([]byte, n)` allocation and only its last `n` bytes are drawn
from the 65-character legal set, because the loop appends to the
already-length-`n` slice instead of indexing into it. -/
theorem claim_C9_genRandomByteSlice_double_length :
    ∀ (n : Nat) (randoms : Nat → Except String (Fin 65))
      (f : Nat → Fin 65), (∀ i, randoms i = .ok (f i)) →
      ∃ out : List Nat, genRandomByteSlice n randoms = .ok out ∧
        out.length = 2 * n ∧
        out.take n = List.replicate n 0 ∧
        out.drop n = (List.range n).map
          (fun k => legalChars.getD (f k).val 0) ∧
        ∀ b ∈ out.drop n, b ∈ legalChars := by
  intro n randoms f hf
  refine ⟨List.replicate n 0 ++ (List.range n).map
    (fun k => legalChars.getD (f k).val 0), ?_, ?_, ?_, ?_, ?_⟩
  · rw [genRandomByteSlice, genRandomLoop_ok randoms f hf n 0]
    simp
  · simp [List.length_append, List.length_replicate, List.length_map,
      List.length_range, Nat.two_mul]
  · rw [List.take_left' (List.length_replicate n 0)]
  · rw [List.drop_left' (List.length_replicate n 0)]
  · rw [List.drop_left' (List.length_replicate n 0)]
    intro b hb
    rcases List.mem_map.mp hb with ⟨k, _, hk⟩
    rw [← hk]
    exact getD_mem_of_lt legalChars (f k).val 0 ((f k).isLt)

theorem claim_C9_witness :
    ∃ out : List Nat,
      genRandomByteSlice 2 (fun _ => .ok (3 : Fin 65)) = .ok out ∧
      out.length = 2 * 2 ∧
      out.take 2 = List.replicate 2 0 ∧
      out.drop 2 = (List.range 2).map
        (fun k => legalChars.getD ((fun _ : Nat => (3 : Fin 65)) k).val 0) ∧
      ∀ b ∈ out.drop 2, b ∈ legalChars :=
  claim_C9_genRandomByteSlice_double_length 2 (fun _ => .ok (3 : Fin 65))
    (fun _ => (3 : Fin 65)) (fun _ => rfl)

/-- C10: the timestamp converters are not round-trip inverses: for every
non-negative `n`, `TsToUnixUTC (UnixToUtcTS n)` equals `n mod 1e9`
(`UnixToUtcTS` interprets its input as nanoseconds and `TsToUnixUTC`
returns only the nanoseconds field, discarding the seconds); in
particular the round trip is not the identity at `1000000000`. -/
theorem claim_C10_timestamp_not_roundtrip :
    (∀ n : Int, 0 ≤ n →
      tsToUnixUTC (unixToUtcTS n) = n % 1000000000) ∧
    tsToUnixUTC (unixToUtcTS 1000000000) ≠ 1000000000 := by
  constructor
  · intro n hn
    obtain ⟨m, rfl⟩ := Int.eq_ofNat_of_zero_le hn
    have htd : ((m : Int)).tdiv 1000000000 =
        ((m / 1000000000 : Nat) : Int) := rfl
    simp only [tsToUnixUTC, unixToUtcTS, goTimeUnix, htd]
    split_ifs with h1 h2 <;> omega
  · decide

theorem claim_C10_witness :
    0 ≤ (1234567890123 : Int) ∧
    tsToUnixUTC (unixToUtcTS 1234567890123) =
      (1234567890123 : Int) % 1000000000 :=
  ⟨by decide, claim_C10_timestamp_not_roundtrip.1 1234567890123 (by decide)⟩

end SysShareConfig
